import Mathlib

/-!
Verification of the `dfs` GCS adapter (package `gcsfs`) and its streaming
utilities (package `gcsutil` / `ioutil`).

The object store is modelled as a flat map from object keys to byte
sequences.  Bytes are modelled as `Nat` (their numeric value is never
inspected).  The external GCS client's primitives (reader open, conditional
writer, copy, delete, attribute fetch, prefix listing) are modelled as state
transitions on that map, following the store semantics the adapter relies on;
transient network failures are supplied through explicit error oracles so
that the adapter's retry and error-propagation logic can be stated exactly
as the Go source implements it.
-/

/-- A byte sequence (object content). -/
abbrev ByteSeq := List Nat

/-- The state of a GCS bucket: a flat map from object key to content. -/
abbrev Bucket := String → Option ByteSeq

/-- Empty bucket. -/
def emptyBucket : Bucket := fun _ => none

/-- Whole-object replace-on-write: store `v` at key `k`. -/
def updateBucket (b : Bucket) (k : String) (v : ByteSeq) : Bucket :=
  fun x => if x = k then some v else b x

/-- Object deletion at key `k`. -/
def deleteKey (b : Bucket) (k : String) : Bucket :=
  fun x => if x = k then none else b x

/-- `filepath.Join` on two clean, nonempty, relative components, as used for
the `gcs://bucket/object` locations in error messages. -/
def joinPath (a b : String) : String := a ++ "/" ++ b

/-- Whether the key `k` starts with the string `pre` — the store's
prefix-listing criterion (stated on the underlying character lists, which
coincides with Go's string prefix test). -/
def keyHasPrefix (pre k : String) : Bool := pre.data.isPrefixOf k.data

/-- The error the store client reports for a read/attrs/copy of an absent
object. -/
def objectNotFoundErr : String := "storage: object doesn't exist"

/-- The error the store client reports when a `DoesNotExist` write
precondition fails because the destination key already exists. -/
def preconditionFailedErr : String :=
  "googleapi: Error 412: At least one of the pre-conditions you specified did not hold, conditionNotMet"

namespace gcsfs

/-- `type Behaviour int` from gcsfs.go (a Go `int`). -/
abbrev Behaviour := Int

/-- `InvalidBehaviour = iota` (the zero value). -/
def InvalidBehaviour : Behaviour := 0

/-- `Panic` behaviour mode. -/
def Panic : Behaviour := 1

/-- `Warn` behaviour mode. -/
def Warn : Behaviour := 2

/-- `Ignore` behaviour mode. -/
def Ignore : Behaviour := 3

/-- Outcome of a policy-governed call: the Go code either panics, returns a
non-nil `error`, or returns a nil `error`. -/
inductive PolicyResult where
  | panicked (msg : String)
  | err (msg : String)
  | ok
deriving DecidableEq, Repr

/-- The message of the `panic` reached when `BehaviourMode` matches no case
of the `switch` in `throwUnimplemented`. -/
def uninitializedMsg : String := "Uninitialized gcsfs behaviour mode"

/-- `GCS.throwUnimplemented` from gcsfs.go lines 74-85: `switch` on
`BehaviourMode`; `Panic` panics with the message, `Warn` logs and returns
`fmt.Errorf(message)`, `Ignore` returns nil, and any other value falls
through to `panic("Uninitialized gcsfs behaviour mode")`. -/
def throwUnimplemented (mode : Behaviour) (message : String) : PolicyResult :=
  if mode = Panic then .panicked message
  else if mode = Warn then .err message
  else if mode = Ignore then .ok
  else .panicked uninitializedMsg

/-- Outcome of `GCS.User`, which returns only a string (or panics inside
`throwUnimplemented`). -/
inductive UserResult where
  | panicked (msg : String)
  | ok (s : String)
deriving DecidableEq, Repr

/-- `GCS.User` from gcsfs.go lines 87-92: returns `""` when
`throwUnimplemented` returns nil, the fixed message otherwise. -/
def User (mode : Behaviour) : UserResult :=
  match throwUnimplemented mode "User method not implemented" with
  | .panicked m => .panicked m
  | .ok => .ok ""
  | .err _ => .ok "User method not implemented"

/-- `GCS.Chmod` from gcsfs.go line 208-210: delegates to the policy. -/
def Chmod (mode : Behaviour) : PolicyResult :=
  throwUnimplemented mode "chmod not implemented"

/-- `GCS.Chown` from gcsfs.go line 212-214: delegates to the policy. -/
def Chown (mode : Behaviour) : PolicyResult :=
  throwUnimplemented mode "chown not implemented"

/-- `GCS.Chtimes` from gcsfs.go line 216-218: delegates to the policy. -/
def Chtimes (mode : Behaviour) : PolicyResult :=
  throwUnimplemented mode "chtimes not implemented"

/-- `GCS.Walk` from gcsfs.go line 344-346: delegates to the policy. -/
def Walk (mode : Behaviour) : PolicyResult :=
  throwUnimplemented mode "walk not implemented"

/-- Outcome of `GCS.Append`, which returns `(dfsapi.FileWriter, error)`.
The writer is modelled opaquely as `Unit` since `Append` never constructs
one. -/
inductive AppendResult where
  | panicked (msg : String)
  | result (writer : Option Unit) (err : Option String)
deriving DecidableEq, Repr

/-- `GCS.Append` from gcsfs.go lines 186-189:
`err := g.throwUnimplemented("Append method not implemented"); return nil, err`. -/
def Append (mode : Behaviour) : AppendResult :=
  match throwUnimplemented mode "Append method not implemented" with
  | .panicked m => .panicked m
  | .err m => .result none (some m)
  | .ok => .result none none

/-- Object attributes as fetched by `ObjectHandle.Attrs`; only the fields
the adapter reads are modelled. `Attrs` returns `nil` attributes exactly
when the key is absent. -/
structure ObjectAttrs where
  size : Nat
deriving DecidableEq, Repr

/-- The store's attribute fetch: `some` attributes when the key exists,
`none` (Go: nil pointer plus a not-found error) when it does not. -/
def Attrs (b : Bucket) (name : String) : Option ObjectAttrs :=
  (b name).map (fun v => ⟨v.length⟩)

/-- The `FileInfo` struct from gcsfs.go (fields the adapter fills). -/
structure FileInfo where
  name : String
  size : Nat
  mode : Nat
  isDir : Bool
deriving DecidableEq, Repr

/-- The Go runtime message for dereferencing the nil `attrs` pointer. -/
def nilDereferenceMsg : String :=
  "runtime error: invalid memory address or nil pointer dereference"

/-- Outcome of `GCS.Stat`. -/
inductive StatResult where
  | panicked (msg : String)
  | ok (fi : FileInfo)
  | err (msg : String)
deriving DecidableEq, Repr

/-- `GCS.Stat` from gcsfs.go lines 322-336: fetches `Attrs` but never
checks its error; it immediately reads `attrs.Size`, so an absent key
(nil attributes) is a nil-pointer dereference panic, and a present key
returns the synthesized `FileInfo` with a nil error. -/
def Stat (b : Bucket) (name : String) : StatResult :=
  match Attrs b name with
  | none => .panicked nilDereferenceMsg
  | some a => .ok ⟨name, a.size, 438, false⟩

/-- `GCS.CopyToLocal` from gcsfs.go lines 107-124, acting on the remote
bucket `b` and the local filesystem `localFs` (also modelled as a key-to-
bytes map).  The Go code opens `client.bucket.Object(dst).NewReader(ctx)` —
the `src` argument is never used — then `os.Create(dst)` and a straight
byte copy.  `src` is kept in the signature to match the source. -/
def CopyToLocal (b : Bucket) (localFs : Bucket) (src dst : String) :
    Bucket × Option String :=
  match b dst with
  | none => (localFs, some objectNotFoundErr)
  | some v => (updateBucket localFs dst v, none)

/-- One `copier.Run(ctx)` call (gcsfs.go line 310): given a transient-
failure oracle value for this attempt, either fail with that error (state
unchanged), fail with not-found when the source key is absent, or replace
the destination key with the source's content. -/
def copierRun (b : Bucket) (oldpath newpath : String)
    (transientErr : Option String) : Bucket × Option String :=
  match transientErr with
  | some e => (b, some e)
  | none =>
    match b oldpath with
    | none => (b, some objectNotFoundErr)
    | some v => (updateBucket b newpath v, none)

/-- The retry loop of `GCS.Rename` (gcsfs.go lines 309-315), with explicit
fuel (remaining iterations of `for retries := 0; retries < 5`), the current
attempt index `i` feeding the transient oracle, the last attempt's error,
and a counter of `time.Sleep(1 * time.Second)` calls executed.  On success
it returns nil immediately without sleeping; on failure it sleeps one
second and retries. -/
def renameLoop (oldpath newpath : String) (transient : Nat → Option String) :
    Nat → Nat → Bucket → Option String → Nat → Bucket × Option String × Nat
  | 0, _, b, lastErr, sleeps => (b, lastErr, sleeps)
  | fuel + 1, i, b, _, sleeps =>
    match copierRun b oldpath newpath (transient i) with
    | (b2, none) => (b2, none, sleeps)
    | (b2, some m) =>
      renameLoop oldpath newpath transient fuel (i + 1) b2 (some m) (sleeps + 1)

/-- `GCS.Rename` from gcsfs.go lines 302-316: copy `oldpath` to `newpath`
with up to 5 attempts; the source is never deleted.  Returns the final
bucket, the returned error, and the number of one-second sleeps executed. -/
def Rename (b : Bucket) (oldpath newpath : String)
    (transient : Nat → Option String) : Bucket × Option String × Nat :=
  renameLoop oldpath newpath transient 5 0 b none 0

/-- The error produced by attempt `k` of the rename copy (all failed
attempts leave the bucket at `b`, so the attempt outcome depends only on
`b` and `transient k`). -/
def attemptErr (b : Bucket) (oldpath newpath : String)
    (transient : Nat → Option String) (k : Nat) : Option String :=
  (copierRun b oldpath newpath (transient k)).2

/-- The deletion loop of `GCS.RemoveAll` (gcsfs.go lines 280-291) over the
listing produced by the prefix query, with a per-key deletion failure
oracle `failDel`.  It deletes keys in listing order and returns the first
deletion error immediately. -/
def removeAllGo (failDel : String → Option String) :
    List String → Bucket → Bucket × Option String
  | [], b => (b, none)
  | k :: rest, b =>
    match failDel k with
    | some e => (b, some e)
    | none => removeAllGo failDel rest (deleteKey b k)

/-- `GCS.RemoveAll` from gcsfs.go lines 266-293, parameterized by the
listing the store's prefix query returns (the code iterates it with no
delimiter) and a deletion failure oracle. -/
def RemoveAll (b : Bucket) (listing : List String)
    (failDel : String → Option String) : Bucket × Option String :=
  removeAllGo failDel listing b

end gcsfs

namespace ioutil

/-- `interruptibleCtx.Read` from the ioutil package: if `ctx.Err()` is
non-nil the read returns `(0, err)` without touching the wrapped reader;
otherwise it delegates unchanged.  The wrapped `io.Reader` is modelled as a
state-passing function `rd` on an arbitrary reader-state type `σ`,
returning `(bytes-read, error)` and the successor state; `ctxErr` is the
value of `ctx.Err()` at the moment of the call. -/
def interruptibleCtxRead {σ : Type} (ctxErr : Option String)
    (rd : σ → Nat → (Nat × Option String) × σ) (s : σ) (count : Nat) :
    (Nat × Option String) × σ :=
  match ctxErr with
  | some e => ((0, some e), s)
  | none => rd s count

/-- The sequence of reads an `io.Copy` loop issues through the
context-aware reader: `n` reads of `count` bytes each, accumulating the
total bytes obtained from the source and threading the reader state. -/
def readLoop {σ : Type} (ctxErr : Option String)
    (rd : σ → Nat → (Nat × Option String) × σ) (count : Nat) :
    Nat → σ → Nat × σ
  | 0, s => (0, s)
  | n + 1, s =>
    let r1 := interruptibleCtxRead ctxErr rd s count
    let r2 := readLoop ctxErr rd count n r1.2
    (r1.1.1 + r2.1, r2.2)

end ioutil

namespace gcsutil

/-- `GCSUtil.StreamIntoDFS` from the gcsutil package: wraps the source in
the context-aware reader, opens a writer on `name` conditioned on
`DoesNotExist` when `overwrite` is false, copies, then closes the writer.
`ctxErr` is the context's error state during the transfer (`none` = never
fires) and `content` the source stream's bytes.  With a fired context the
first read fails, `io.Copy` returns that error wrapped with the destination
location, and the writer is never closed so the bucket is unchanged.  With
a live context the copy transfers all bytes and `wc.Close()` commits the
object — unless the `DoesNotExist` precondition fails because `name`
already exists, in which case `Close` returns the store's precondition
error (returned unwrapped) and the bucket is unchanged.
Returns (bucket, bytes transferred, error). -/
def StreamIntoDFS (bucketName : String) (b : Bucket) (ctxErr : Option String)
    (content : ByteSeq) (name : String) (overwrite : Bool) :
    Bucket × Nat × Option String :=
  match ctxErr with
  | some e =>
    (b, 0, some ("Error copying from input stream to gcs://" ++
      joinPath bucketName name ++ " :  " ++ e))
  | none =>
    if overwrite = false ∧ (b name).isSome then
      (b, content.length, some preconditionFailedErr)
    else
      (updateBucket b name content, content.length, none)

/-- `GCSUtil.StreamFromDFS` from the gcsutil package: opens a reader on
`object` (failing with a location-wrapped not-found error when absent),
copies to the destination stream with a mid-copy failure oracle
`copyFail = some (bytes-so-far, error)`, then closes the destination with
failure oracle `closeErr`.  Returns (bytes transferred, error), with the
error messages formatted exactly as the Go source formats them. -/
def StreamFromDFS (b : Bucket) (bucketName object : String)
    (copyFail : Option (Nat × String)) (closeErr : Option String) :
    Nat × Option String :=
  match b object with
  | none =>
    (0, some ("failed to read object gcs://" ++ joinPath bucketName object ++
      ": " ++ objectNotFoundErr))
  | some v =>
    match copyFail with
    | some (n, e) => (n, some ("failed to fully copy file from GCS - " ++ e))
    | none =>
      match closeErr with
      | some e =>
        (v.length, some ("failed to close file gcs://" ++
          joinPath bucketName object ++ ": " ++ e))
      | none => (v.length, none)

end gcsutil

/-- Substring search on character lists: `findSub nd hay` is true when `nd`
occurs contiguously inside `hay`. -/
def findSub (needle : List Char) : List Char → Bool
  | [] => needle.isEmpty
  | c :: t => needle.isPrefixOf (c :: t) || findSub needle t

/-- Whether the string `loc` occurs inside the message `msg` — the sense in
which an error message "embeds" an object location. -/
def embedsLocation (loc msg : String) : Bool :=
  findSub loc.data msg.data

/-- Concrete three-object bucket used by witnesses. -/
def bucketABC : Bucket :=
  updateBucket (updateBucket (updateBucket emptyBucket "a/1" [1]) "a/2" [2])
    "b/1" [3]

/-- A failed copy attempt leaves the bucket unchanged. -/
theorem copierRun_err_fst (b : Bucket) (o n : String) (t : Option String)
    (e : String) (h : (gcsfs.copierRun b o n t).2 = some e) :
    (gcsfs.copierRun b o n t).1 = b := by
  unfold gcsfs.copierRun at h ⊢
  cases t with
  | some x => rfl
  | none =>
    cases hb : b o with
    | none => simp [hb]
    | some v => simp [hb] at h

/-- A successful copy attempt requires the source to exist and replaces the
destination with the source's content. -/
theorem copierRun_ok (b : Bucket) (o n : String) (t : Option String)
    (h : (gcsfs.copierRun b o n t).2 = none) :
    ∃ v, b o = some v ∧ (gcsfs.copierRun b o n t).1 = updateBucket b n v := by
  unfold gcsfs.copierRun at h ⊢
  cases t with
  | some x => simp at h
  | none =>
    cases hb : b o with
    | none => simp [hb] at h
    | some v => exact ⟨v, rfl, by simp [hb]⟩

/-- If every attempt the loop has fuel for fails, the loop leaves the
bucket unchanged, returns the last attempt's error, and sleeps once per
failed attempt. -/
theorem renameLoop_all_fail (old new : String)
    (transient : Nat → Option String) :
    ∀ (fuel i : Nat) (b : Bucket) (le : Option String) (sl : Nat),
      0 < fuel →
      (∀ k, k < fuel → gcsfs.attemptErr b old new transient (i + k) ≠ none) →
      gcsfs.renameLoop old new transient fuel i b le sl
        = (b, gcsfs.attemptErr b old new transient (i + fuel - 1), sl + fuel) := by
  intro fuel
  induction fuel with
  | zero => intro i b le sl h; exact absurd h (by omega)
  | succ f ih =>
    intro i b le sl _ hfail
    have h0 : gcsfs.attemptErr b old new transient i ≠ none := by
      have := hfail 0 (Nat.succ_pos f); simpa using this
    obtain ⟨m, hm⟩ : ∃ m, (gcsfs.copierRun b old new (transient i)).2 = some m := by
      cases hco : (gcsfs.copierRun b old new (transient i)).2 with
      | none => exact absurd hco h0
      | some m => exact ⟨m, rfl⟩
    have hfst : (gcsfs.copierRun b old new (transient i)).1 = b :=
      copierRun_err_fst b old new (transient i) m hm
    have hpair : gcsfs.copierRun b old new (transient i) = (b, some m) :=
      Prod.ext hfst hm
    simp only [gcsfs.renameLoop, hpair]
    cases f with
    | zero =>
      simp only [gcsfs.renameLoop]
      have : gcsfs.attemptErr b old new transient (i + 1 - 1) = some m := by
        simpa [gcsfs.attemptErr] using hm
      rw [this]
    | succ f2 =>
      have hrec := ih (i + 1) b (some m) (sl + 1) (Nat.succ_pos f2)
        (by
          intro k hk
          have := hfail (k + 1) (by omega)
          have hidx : i + (k + 1) = i + 1 + k := by omega
          rwa [hidx] at this)
      rw [hrec]
      have hidx : i + 1 + (f2 + 1) - 1 = i + (f2 + 1 + 1) - 1 := by omega
      rw [hidx]
      have hsl : sl + 1 + (f2 + 1) = sl + (f2 + 1 + 1) := by omega
      rw [hsl]

/-- If the first successful attempt is attempt `k` (zero-based, within
fuel), the loop returns nil, the destination holds the source's content,
and exactly `k` sleeps were executed before it. -/
theorem renameLoop_first_success (old new : String)
    (transient : Nat → Option String) :
    ∀ (fuel i : Nat) (b : Bucket) (le : Option String) (sl k : Nat),
      k < fuel →
      (∀ j, j < k → gcsfs.attemptErr b old new transient (i + j) ≠ none) →
      gcsfs.attemptErr b old new transient (i + k) = none →
      ∃ v, b old = some v ∧
        gcsfs.renameLoop old new transient fuel i b le sl
          = (updateBucket b new v, none, sl + k) := by
  intro fuel
  induction fuel with
  | zero => intro i b le sl k hk; exact absurd hk (by omega)
  | succ f ih =>
    intro i b le sl k hk hfirst hsucc
    cases k with
    | zero =>
      have hz : (gcsfs.copierRun b old new (transient i)).2 = none := by
        simpa [gcsfs.attemptErr] using hsucc
      obtain ⟨v, hv, hfst⟩ := copierRun_ok b old new (transient i) hz
      have hpair : gcsfs.copierRun b old new (transient i)
          = (updateBucket b new v, none) :=
        Prod.ext hfst hz
      refine ⟨v, hv, ?_⟩
      simp only [gcsfs.renameLoop, hpair]
      simp
    | succ k2 =>
      have h0 : gcsfs.attemptErr b old new transient i ≠ none := by
        have := hfirst 0 (Nat.succ_pos k2); simpa using this
      obtain ⟨m, hm⟩ : ∃ m, (gcsfs.copierRun b old new (transient i)).2 = some m := by
        cases hco : (gcsfs.copierRun b old new (transient i)).2 with
        | none => exact absurd hco h0
        | some m => exact ⟨m, rfl⟩
      have hfst : (gcsfs.copierRun b old new (transient i)).1 = b :=
        copierRun_err_fst b old new (transient i) m hm
      have hpair : gcsfs.copierRun b old new (transient i) = (b, some m) :=
        Prod.ext hfst hm
      simp only [gcsfs.renameLoop, hpair]
      have hrec := ih (i + 1) b (some m) (sl + 1) k2 (by omega)
        (by
          intro j hj
          have := hfirst (j + 1) (by omega)
          have hidx : i + (j + 1) = i + 1 + j := by omega
          rwa [hidx] at this)
        (by
          have hidx : i + (k2 + 1) = i + 1 + k2 := by omega
          rwa [hidx] at hsucc)
      obtain ⟨v, hv, heq⟩ := hrec
      refine ⟨v, hv, ?_⟩
      rw [heq]
      have hsl : sl + 1 + k2 = sl + (k2 + 1) := by omega
      rw [hsl]

/-- A nil-returning run of the loop implies the source existed and the
final bucket is the input bucket with the destination replaced by the
source's content. -/
theorem renameLoop_success_inv (old new : String)
    (transient : Nat → Option String) :
    ∀ (fuel i : Nat) (b : Bucket) (le : Option String) (sl : Nat),
      (fuel = 0 → le ≠ none) →
      (gcsfs.renameLoop old new transient fuel i b le sl).2.1 = none →
      ∃ v, b old = some v ∧
        (gcsfs.renameLoop old new transient fuel i b le sl).1
          = updateBucket b new v := by
  intro fuel
  induction fuel with
  | zero =>
    intro i b le sl hle h
    exact absurd h (hle rfl)
  | succ f ih =>
    intro i b le sl _ h
    cases hco : (gcsfs.copierRun b old new (transient i)).2 with
    | none =>
      obtain ⟨v, hv, hfst⟩ := copierRun_ok b old new (transient i) hco
      have hpair : gcsfs.copierRun b old new (transient i)
          = (updateBucket b new v, none) :=
        Prod.ext hfst hco
      refine ⟨v, hv, ?_⟩
      simp only [gcsfs.renameLoop, hpair]
    | some m =>
      have hfst : (gcsfs.copierRun b old new (transient i)).1 = b :=
        copierRun_err_fst b old new (transient i) m hco
      have hpair : gcsfs.copierRun b old new (transient i) = (b, some m) :=
        Prod.ext hfst hco
      rw [gcsfs.renameLoop, hpair] at h ⊢
      exact ih (i + 1) b (some m) (sl + 1) (fun _ => by simp) h

/-- C3: a successful `Rename(old, new)` leaves the object at `old` present
with its bytes unchanged (the source is never deleted) and puts a copy of
`old`'s content at `new`. -/
theorem rename_success_preserves_source_and_copies (b : Bucket)
    (old new : String) (transient : Nat → Option String)
    (hs : (gcsfs.Rename b old new transient).2.1 = none) :
    ∃ v, b old = some v
      ∧ (gcsfs.Rename b old new transient).1 old = some v
      ∧ (gcsfs.Rename b old new transient).1 new = some v := by
  obtain ⟨v, hv, hb⟩ := renameLoop_success_inv old new transient 5 0 b none 0
    (by intro h; exact absurd h (by decide)) hs
  refine ⟨v, hv, ?_, ?_⟩
  · rw [show (gcsfs.Rename b old new transient).1
        = updateBucket b new v from hb]
    simp only [updateBucket]
    split
    · rfl
    · exact hv
  · rw [show (gcsfs.Rename b old new transient).1
        = updateBucket b new v from hb]
    simp [updateBucket]

/-- Witness for `rename_success_preserves_source_and_copies`: a bucket
holding only `a ↦ [1]`, renamed to `b` with no transient failures. -/
theorem rename_success_preserves_source_and_copies_witness :
    ∃ v, updateBucket emptyBucket "a" [1] "a" = some v
      ∧ (gcsfs.Rename (updateBucket emptyBucket "a" [1]) "a" "b"
          (fun _ => none)).1 "a" = some v
      ∧ (gcsfs.Rename (updateBucket emptyBucket "a" [1]) "a" "b"
          (fun _ => none)).1 "b" = some v :=
  rename_success_preserves_source_and_copies
    (updateBucket emptyBucket "a" [1]) "a" "b" (fun _ => none) (by decide)

/-- C8: `Rename` makes up to 5 copy attempts with a one-second sleep after
each failed attempt: if all 5 attempts fail it returns the 5th attempt's
error with the bucket unchanged (after 5 sleeps), and if attempt `k`
(zero-based) is the first to succeed it returns nil having slept exactly
`k` seconds — i.e. one one-second pause between consecutive attempts. -/
theorem rename_retry_spec (b : Bucket) (old new : String)
    (transient : Nat → Option String) :
    ((∀ k, k < 5 → gcsfs.attemptErr b old new transient k ≠ none) →
      gcsfs.Rename b old new transient
        = (b, gcsfs.attemptErr b old new transient 4, 5))
    ∧ (∀ k, k < 5 →
        (∀ j, j < k → gcsfs.attemptErr b old new transient j ≠ none) →
        gcsfs.attemptErr b old new transient k = none →
        (gcsfs.Rename b old new transient).2.1 = none
        ∧ (gcsfs.Rename b old new transient).2.2 = k) := by
  constructor
  · intro hall
    have h := renameLoop_all_fail old new transient 5 0 b none 0 (by omega)
      (by intro k hk; simpa using hall k hk)
    simpa [gcsfs.Rename] using h
  · intro k hk hfirst hsucc
    obtain ⟨v, hv, heq⟩ := renameLoop_first_success old new transient 5 0 b
      none 0 k hk
      (by intro j hj; simpa using hfirst j hj)
      (by simpa using hsucc)
    have heq2 : gcsfs.Rename b old new transient
        = (updateBucket b new v, none, 0 + k) := heq
    rw [heq2]
    exact ⟨rfl, by simp⟩

/-- Witness for `rename_retry_spec`: transient failures on attempts 0 and 1
and success on attempt 2, from a bucket holding `a ↦ [1]`; the rename
returns nil after exactly 2 sleeps. -/
theorem rename_retry_spec_witness :
    (gcsfs.Rename (updateBucket emptyBucket "a" [1]) "a" "b"
      (fun i => if i < 2 then some "503 backend error" else none)).2.1 = none
    ∧ (gcsfs.Rename (updateBucket emptyBucket "a" [1]) "a" "b"
      (fun i => if i < 2 then some "503 backend error" else none)).2.2 = 2 :=
  (rename_retry_spec (updateBucket emptyBucket "a" [1]) "a" "b"
      (fun i => if i < 2 then some "503 backend error" else none)).2
    2 (by decide)
    (by
      intro j hj
      interval_cases j <;> decide)
    (by decide)

/-- C1 counterexample: under the `Ignore` behaviour mode, `Append` returns
a nil writer and a nil error — no not-implemented error is produced, so
there is a policy mode under which `Append` returns without an error. -/
theorem append_ignore_mode_returns_no_error :
    gcsfs.Append gcsfs.Ignore = gcsfs.AppendResult.result none none := by
  decide

/-- C1 (amended): `Append` routes through the configured policy mode rather
than being hard-coded to an error: under `Warn` it returns a nil writer and
the not-implemented error, under `Ignore` a nil writer and a nil error,
under `Panic` it panics with the not-implemented message; whenever it
returns at all, the writer is nil. -/
theorem append_follows_policy_mode :
    gcsfs.Append gcsfs.Panic
        = gcsfs.AppendResult.panicked "Append method not implemented"
    ∧ gcsfs.Append gcsfs.Warn
        = gcsfs.AppendResult.result none (some "Append method not implemented")
    ∧ gcsfs.Append gcsfs.Ignore = gcsfs.AppendResult.result none none
    ∧ ∀ (m : gcsfs.Behaviour) (w : Option Unit) (e : Option String),
        gcsfs.Append m = gcsfs.AppendResult.result w e → w = none := by
  refine ⟨by decide, by decide, by decide, ?_⟩
  intro m w e h
  unfold gcsfs.Append at h
  cases hth : gcsfs.throwUnimplemented m "Append method not implemented" with
  | panicked msg => rw [hth] at h; simp at h
  | err msg => rw [hth] at h; simp at h; exact h.1.symm
  | ok => rw [hth] at h; simp at h; exact h.1.symm

/-- Witness for `append_follows_policy_mode`: instantiated at `Warn` with
the concrete result, discharging the equation hypothesis. -/
theorem append_follows_policy_mode_witness :
    (none : Option Unit) = none :=
  append_follows_policy_mode.2.2.2 gcsfs.Warn none
    (some "Append method not implemented") append_follows_policy_mode.2.1

/-- C2 (code bug): `Stat` on an absent key does not return a not-found
error; the Go code ignores the error from `Attrs` and dereferences the nil
attributes pointer, panicking. -/
theorem stat_missing_key_panics :
    gcsfs.Stat emptyBucket "missing"
      = gcsfs.StatResult.panicked gcsfs.nilDereferenceMsg := by
  decide

/-- C4 (code bug): `CopyToLocal(ctx, src, dst)` opens the remote object at
key `dst`, never reading `src`: with remote objects `a ↦ [1]` and
`b ↦ [2]`, copying `src = "a"` to `dst = "b"` leaves the local file `b`
holding `[2]` (the remote `dst` object), not `[1]` (the content of remote
`src`); and when only `src` exists remotely the call fails with not-found
instead of copying it. -/
theorem copyToLocal_reads_dst_not_src :
    (gcsfs.CopyToLocal (updateBucket (updateBucket emptyBucket "a" [1]) "b" [2])
        emptyBucket "a" "b").1 "b" = some [2]
    ∧ (updateBucket (updateBucket emptyBucket "a" [1]) "b" [2]) "a" = some [1]
    ∧ (gcsfs.CopyToLocal (updateBucket emptyBucket "a" [1])
        emptyBucket "a" "b").2 = some objectNotFoundErr := by
  refine ⟨by decide, by decide, by decide⟩

/-- C5: `StreamIntoDFS` with `overwrite = false` against an existing
destination key transfers the bytes into the conditional writer but fails
at finalize with the store's precondition (already-exists) error, leaving
the bucket — in particular the existing object's bytes — unchanged. -/
theorem streamIntoDFS_no_overwrite_existing_fails (bucketName : String)
    (b : Bucket) (content : ByteSeq) (name : String) (v : ByteSeq)
    (hex : b name = some v) :
    gcsutil.StreamIntoDFS bucketName b none content name false
      = (b, content.length, some preconditionFailedErr)
    ∧ (gcsutil.StreamIntoDFS bucketName b none content name false).1 name
      = some v := by
  have h1 : gcsutil.StreamIntoDFS bucketName b none content name false
      = (b, content.length, some preconditionFailedErr) := by
    simp [gcsutil.StreamIntoDFS, hex]
  exact ⟨h1, by rw [h1]; exact hex⟩

/-- Witness for `streamIntoDFS_no_overwrite_existing_fails` at a concrete
bucket holding `f ↦ [7]`. -/
theorem streamIntoDFS_no_overwrite_existing_fails_witness :
    gcsutil.StreamIntoDFS "bkt" (updateBucket emptyBucket "f" [7]) none
        [1, 2] "f" false
      = (updateBucket emptyBucket "f" [7], 2, some preconditionFailedErr) :=
  (streamIntoDFS_no_overwrite_existing_fails "bkt"
    (updateBucket emptyBucket "f" [7]) [1, 2] "f" [7] (by decide)).1

/-- C6: the context-aware reader fails fast — if the context's error has
fired, `Read` returns zero bytes and that error with the wrapped reader
state untouched (the wrapped reader is not invoked); otherwise it returns
exactly the wrapped reader's result; consequently a copy loop that drives
any number of reads through it after the signal fires obtains zero bytes
in total and never advances the source. -/
theorem ctx_aware_read_spec :
    (∀ (σ : Type) (e : String) (rd : σ → Nat → (Nat × Option String) × σ)
        (s : σ) (c : Nat),
      ioutil.interruptibleCtxRead (some e) rd s c = ((0, some e), s))
    ∧ (∀ (σ : Type) (rd : σ → Nat → (Nat × Option String) × σ) (s : σ)
        (c : Nat),
      ioutil.interruptibleCtxRead none rd s c = rd s c)
    ∧ (∀ (σ : Type) (e : String) (rd : σ → Nat → (Nat × Option String) × σ)
        (c n : Nat) (s : σ),
      ioutil.readLoop (some e) rd c n s = (0, s)) := by
  refine ⟨fun σ e rd s c => rfl, fun σ rd s c => rfl, ?_⟩
  intro σ e rd c n
  induction n with
  | zero => intro s; rfl
  | succ k ih =>
    intro s
    simp [ioutil.readLoop, ioutil.interruptibleCtxRead, ih]

/-- C10: any behaviour mode outside `{Panic, Warn, Ignore}` — the zero
value `InvalidBehaviour` included — makes every policy-governed operation
(`User`, `Chmod`, `Chown`, `Chtimes`, `Walk`, `Append`) panic with
"Uninitialized gcsfs behaviour mode". -/
theorem invalid_mode_panics_uninitialized (m : gcsfs.Behaviour)
    (h1 : m ≠ gcsfs.Panic) (h2 : m ≠ gcsfs.Warn) (h3 : m ≠ gcsfs.Ignore) :
    gcsfs.User m = gcsfs.UserResult.panicked gcsfs.uninitializedMsg
    ∧ gcsfs.Chmod m = gcsfs.PolicyResult.panicked gcsfs.uninitializedMsg
    ∧ gcsfs.Chown m = gcsfs.PolicyResult.panicked gcsfs.uninitializedMsg
    ∧ gcsfs.Chtimes m = gcsfs.PolicyResult.panicked gcsfs.uninitializedMsg
    ∧ gcsfs.Walk m = gcsfs.PolicyResult.panicked gcsfs.uninitializedMsg
    ∧ gcsfs.Append m = gcsfs.AppendResult.panicked gcsfs.uninitializedMsg := by
  simp [gcsfs.User, gcsfs.Chmod, gcsfs.Chown, gcsfs.Chtimes, gcsfs.Walk,
    gcsfs.Append, gcsfs.throwUnimplemented, h1, h2, h3]

/-- Witness for `invalid_mode_panics_uninitialized` at the zero value
`InvalidBehaviour`. -/
theorem invalid_mode_panics_uninitialized_witness :
    gcsfs.User gcsfs.InvalidBehaviour
        = gcsfs.UserResult.panicked gcsfs.uninitializedMsg
    ∧ gcsfs.Chmod gcsfs.InvalidBehaviour
        = gcsfs.PolicyResult.panicked gcsfs.uninitializedMsg
    ∧ gcsfs.Chown gcsfs.InvalidBehaviour
        = gcsfs.PolicyResult.panicked gcsfs.uninitializedMsg
    ∧ gcsfs.Chtimes gcsfs.InvalidBehaviour
        = gcsfs.PolicyResult.panicked gcsfs.uninitializedMsg
    ∧ gcsfs.Walk gcsfs.InvalidBehaviour
        = gcsfs.PolicyResult.panicked gcsfs.uninitializedMsg
    ∧ gcsfs.Append gcsfs.InvalidBehaviour
        = gcsfs.AppendResult.panicked gcsfs.uninitializedMsg :=
  invalid_mode_panics_uninitialized gcsfs.InvalidBehaviour
    (by decide) (by decide) (by decide)

/-- Folding `deleteKey` over a key list removes exactly those keys. -/
theorem foldl_deleteKey_apply :
    ∀ (l : List String) (b : Bucket) (k : String),
      (l.foldl deleteKey b) k = if k ∈ l then none else b k := by
  intro l
  induction l with
  | nil => intro b k; simp
  | cons j t ih =>
    intro b k
    simp only [List.foldl_cons, ih, deleteKey]
    by_cases hjt : k ∈ t
    · simp [hjt, List.mem_cons]
    · by_cases hkj : k = j
      · simp [hjt, hkj, List.mem_cons]
      · simp [hjt, hkj, List.mem_cons]

/-- When every deletion succeeds, the `RemoveAll` loop deletes the whole
listing and returns nil. -/
theorem removeAllGo_all_ok (failDel : String → Option String) :
    ∀ (l : List String) (b : Bucket), (∀ k ∈ l, failDel k = none) →
      gcsfs.removeAllGo failDel l b = (l.foldl deleteKey b, none) := by
  intro l
  induction l with
  | nil => intro b _; rfl
  | cons j t ih =>
    intro b h
    have hj : failDel j = none := h j (List.mem_cons_self j t)
    simp only [gcsfs.removeAllGo, hj, List.foldl_cons]
    exact ih (deleteKey b j) (fun k hk => h k (List.mem_cons_of_mem j hk))

/-- When the first deletion failure is at key `fk`, the loop has deleted
exactly the keys listed before `fk` and returns that failure. -/
theorem removeAllGo_prefail (failDel : String → Option String) :
    ∀ (pre : List String) (fk : String) (post : List String) (e : String)
      (b : Bucket),
      (∀ j ∈ pre, failDel j = none) → failDel fk = some e →
      gcsfs.removeAllGo failDel (pre ++ fk :: post) b
        = (pre.foldl deleteKey b, some e) := by
  intro pre
  induction pre with
  | nil =>
    intro fk post e b _ hf
    simp only [List.nil_append, gcsfs.removeAllGo, hf, List.foldl_nil]
  | cons j t ih =>
    intro fk post e b hok hf
    have hj : failDel j = none := hok j (by simp)
    simp only [List.cons_append, gcsfs.removeAllGo, hj, List.foldl_cons]
    exact ih fk post e (deleteKey b j) (fun x hx => hok x (by simp [hx])) hf

/-- C7: `RemoveAll` deletes each listed key (the store listing of every key
with the requested prefix) in listing order and returns on the first
deletion failure, leaving already-deleted keys deleted and not-yet-visited
keys untouched; an empty listing (no key matches the prefix) returns nil
with no effect. -/
theorem removeAll_spec (b : Bucket) (dirname : String)
    (listing : List String) (failDel : String → Option String)
    (hlist : ∀ k, k ∈ listing ↔
      ((b k).isSome ∧ keyHasPrefix dirname k = true)) :
    (listing = [] → gcsfs.RemoveAll b listing failDel = (b, none))
    ∧ ((∀ k ∈ listing, failDel k = none) →
        (gcsfs.RemoveAll b listing failDel).2 = none
        ∧ (∀ k, keyHasPrefix dirname k = true →
            (gcsfs.RemoveAll b listing failDel).1 k = none)
        ∧ (∀ k, keyHasPrefix dirname k = false →
            (gcsfs.RemoveAll b listing failDel).1 k = b k))
    ∧ (∀ (pre : List String) (fk : String) (post : List String) (e : String),
        listing = pre ++ fk :: post →
        (∀ j ∈ pre, failDel j = none) → failDel fk = some e →
        (gcsfs.RemoveAll b listing failDel).2 = some e
        ∧ (∀ k, k ∈ pre → (gcsfs.RemoveAll b listing failDel).1 k = none)
        ∧ (∀ k, k ∉ pre → (gcsfs.RemoveAll b listing failDel).1 k = b k)) := by
  refine ⟨?_, ?_, ?_⟩
  · intro hnil
    subst hnil
    rfl
  · intro hok
    have h := removeAllGo_all_ok failDel listing b hok
    have hr : gcsfs.RemoveAll b listing failDel
        = (listing.foldl deleteKey b, none) := h
    rw [hr]
    refine ⟨rfl, ?_, ?_⟩
    · intro k hpre
      show List.foldl deleteKey b listing k = none
      rw [foldl_deleteKey_apply]
      by_cases hmem : k ∈ listing
      · simp [hmem]
      · have : ¬ ((b k).isSome ∧ keyHasPrefix dirname k = true) :=
          fun hc => hmem ((hlist k).mpr hc)
      
        simp only [hpre, and_true] at this
        simp [hmem, Option.not_isSome_iff_eq_none.mp this]
    · intro k hnot
      show List.foldl deleteKey b listing k = b k
      rw [foldl_deleteKey_apply]
      have hmem : k ∉ listing := by
        intro hc
        have := ((hlist k).mp hc).2
        rw [hnot] at this
        exact Bool.false_ne_true this
      simp [hmem]
  · intro pre fk post e hsplit hok hf
    subst hsplit
    have h := removeAllGo_prefail failDel pre fk post e b hok hf
    have hr : gcsfs.RemoveAll b (pre ++ fk :: post) failDel
        = (pre.foldl deleteKey b, some e) := h
    rw [hr]
    refine ⟨rfl, ?_, ?_⟩
    · intro k hmem
      show List.foldl deleteKey b pre k = none
      rw [foldl_deleteKey_apply]
      simp [hmem]
    · intro k hnot
      show List.foldl deleteKey b pre k = b k
      rw [foldl_deleteKey_apply]
      simp [hnot]

/-- Witness for `removeAll_spec`: a bucket with keys `a/1`, `a/2`, `b/1`,
listing the prefix `a/`, all deletions succeeding: the two `a/` keys are
deleted, `b/1` keeps its bytes, and no error is returned. -/
theorem removeAll_spec_witness :
    (gcsfs.RemoveAll bucketABC ["a/1", "a/2"] (fun _ => none)).2 = none
    ∧ (gcsfs.RemoveAll bucketABC ["a/1", "a/2"] (fun _ => none)).1 "a/1"
        = none
    ∧ (gcsfs.RemoveAll bucketABC ["a/1", "a/2"] (fun _ => none)).1 "b/1"
        = bucketABC "b/1" := by
  have hlist : ∀ k, k ∈ ["a/1", "a/2"] ↔
      ((bucketABC k).isSome ∧ keyHasPrefix "a/" k = true) := by
    intro k
    by_cases h1 : k = "a/1"
    · subst h1; decide
    · by_cases h2 : k = "a/2"
      · subst h2; decide
      · by_cases h3 : k = "b/1"
        · subst h3; decide
        · simp [bucketABC, updateBucket, emptyBucket, h1, h2, h3]
  have h := (removeAll_spec bucketABC "a/" ["a/1", "a/2"] (fun _ => none)
    hlist).2.1 (fun k _ => rfl)
  exact ⟨h.1, h.2.1 "a/1" (by decide), h.2.2 "b/1" (by decide)⟩

/-- A list is a prefix of itself extended by anything. -/
theorem isPrefixOf_append_self :
    ∀ (l t : List Char), l.isPrefixOf (l ++ t) = true := by
  intro l
  induction l with
  | nil => intro t; cases t <;> rfl
  | cons a l ih => intro t; simp [List.isPrefixOf, ih]

/-- A prefix of the haystack is found by `findSub`. -/
theorem findSub_of_isPrefixOf (nd hay : List Char)
    (h : nd.isPrefixOf hay = true) : findSub nd hay = true := by
  cases hay with
  | nil =>
    cases nd with
    | nil => rfl
    | cons a t => simp [List.isPrefixOf] at h
  | cons c t => simp [findSub, h]

/-- `findSub` finds a needle placed anywhere inside the haystack. -/
theorem findSub_append_mid :
    ∀ (p nd sf : List Char), findSub nd (p ++ (nd ++ sf)) = true := by
  intro p nd sf
  induction p with
  | nil =>
    simpa using findSub_of_isPrefixOf nd (nd ++ sf)
      (isPrefixOf_append_self nd sf)
  | cons c pt ih => simp [findSub, ih]

/-- A message of the shape `p ++ loc ++ sf` embeds `loc`. -/
theorem embedsLocation_of_mid (p loc sf : String) :
    embedsLocation loc (p ++ loc ++ sf) = true := by
  unfold embedsLocation
  have h : (p ++ loc ++ sf).data = p.data ++ (loc.data ++ sf.data) := by
    rw [String.data_append, String.data_append, List.append_assoc]
  rw [h]
  exact findSub_append_mid p.data loc.data sf.data

/-- C9 counterexample: a mid-copy failure in `StreamFromDFS` (bucket `b`,
object `o`, underlying error "unexpected EOF") is reported as
"failed to fully copy file from GCS - unexpected EOF", which does not
embed the source object's location `b/o`. -/
theorem streamFromDFS_copy_error_lacks_location :
    (gcsutil.StreamFromDFS (updateBucket emptyBucket "o" [1]) "b" "o"
        (some (0, "unexpected EOF")) none).2
      = some "failed to fully copy file from GCS - unexpected EOF"
    ∧ embedsLocation (joinPath "b" "o")
        "failed to fully copy file from GCS - unexpected EOF" = false := by
  constructor
  · rfl
  · decide

/-- C9 (amended): in `StreamFromDFS`, the read-stream open failure and the
destination finalize (close) failure are reported with the source object's
location (`bucket/object`) embedded in the message, but a mid-copy failure
is reported with a fixed message that embeds only the underlying error, not
the location. -/
theorem streamFromDFS_open_close_errors_embed_location (b : Bucket)
    (bucketName object : String) (copyFail : Option (Nat × String))
    (closeErr : Option String) :
    (b object = none →
      embedsLocation (joinPath bucketName object)
        ((gcsutil.StreamFromDFS b bucketName object copyFail closeErr).2.getD "")
        = true)
    ∧ (∀ v e, b object = some v → copyFail = none → closeErr = some e →
      embedsLocation (joinPath bucketName object)
        ((gcsutil.StreamFromDFS b bucketName object copyFail closeErr).2.getD "")
        = true)
    ∧ (∀ v n e, b object = some v → copyFail = some (n, e) →
      (gcsutil.StreamFromDFS b bucketName object copyFail closeErr).2
        = some ("failed to fully copy file from GCS - " ++ e)) := by
  refine ⟨?_, ?_, ?_⟩
  · intro habs
    simp only [gcsutil.StreamFromDFS, habs, Option.getD_some]
    have h : "failed to read object gcs://" ++ joinPath bucketName object ++
        ": " ++ objectNotFoundErr
        = "failed to read object gcs://" ++ joinPath bucketName object ++
          (": " ++ objectNotFoundErr) := by
      rw [String.append_assoc]
    rw [h]
    exact embedsLocation_of_mid _ _ _
  · intro v e hex hcf hce
    subst hcf
    subst hce
    simp only [gcsutil.StreamFromDFS, hex, Option.getD_some]
    have h : "failed to close file gcs://" ++ joinPath bucketName object ++
        ": " ++ e
        = "failed to close file gcs://" ++ joinPath bucketName object ++
          (": " ++ e) := by
      rw [String.append_assoc]
    rw [h]
    exact embedsLocation_of_mid _ _ _
  · intro v n e hex hcf
    subst hcf
    simp only [gcsutil.StreamFromDFS, hex]

/-- Witness for `streamFromDFS_open_close_errors_embed_location`: the
open-failure branch at a concrete empty bucket. -/
theorem streamFromDFS_open_close_errors_embed_location_witness :
    embedsLocation (joinPath "bkt" "obj")
      ((gcsutil.StreamFromDFS emptyBucket "bkt" "obj" none none).2.getD "")
      = true :=
  (streamFromDFS_open_close_errors_embed_location emptyBucket "bkt" "obj"
    none none).1 rfl
